import Mathlib

/-!
# InvoiceGuard — Diagnostics Enrichment & Presentation Pipeline, shallow embedding

This file embeds the core of the InvoiceGuard diagnostics pipeline in Lean 4 and
proves (or refutes) the frozen specification claims about it.

Embedded source files:
* `src/diagnostics/pipeline.py`    — finding normalization (`DiagnosticsPipeline.run`)
* `src/diagnostics/dependency_filter.py` — `DependencyFilter.apply`
* `src/diagnostics/presentation.py` — grouping, evidence merge, mode projections
* `src/diagnostics/message_catalog.py` — SHORT titles / fixes with fallback generator
* `src/main.py`                    — `_deduplicate_errors`, `_apply_cross_error_suppression`

Conventions: Python dicts become association lists preserving insertion order
(assignment replaces the value of the first matching key in place, otherwise
appends at the end, as CPython dicts do); Python numbers appearing in evidence
tallies are modelled as `Int` (the code only ever sums integer counts);
Python strings are Lean `String`s / `List Char` (one `Char` per code point,
matching `len` and slicing on `str`); in-place list mutation over a batch
becomes `List.map`; fallible code returns `Except`/`Option`.
-/

set_option maxRecDepth 4000

namespace InvoiceGuard

/-! ## Python-style dynamic values (raw findings are untyped dicts) -/

/-- A dynamically typed Python value appearing in a raw finding dict. -/
inductive PyValue : Type where
  | none
  | str (s : String)
  | int (n : Int)
  | bool (b : Bool)
  deriving DecidableEq, Repr

/-- A raw finding: a Python dict from field name to value (insertion ordered). -/
abbrev RawItem := List (String × PyValue)

/-- `raw_item.get(k)` / `k in raw_item`: value of the first entry with key `k`. -/
def pyGet (it : RawItem) (k : String) : Option PyValue :=
  (it.find? (fun p => p.1 == k)).map (fun p => p.2)

/-- Python `str.lower()`, code point by code point (the identifiers appearing
here are ASCII, where `Char.toLower` agrees with Python). -/
def pyLower (s : String) : String := String.mk (s.data.map Char.toLower)

/-! ## `diagnostics/types.py` — `ErrorItem`
The normalized error record built by `DiagnosticsPipeline.run`.  The pipeline
copies `raw_item["id"]` / `raw_item["message"]` through unchanged (whatever
Python value they hold), so those two fields stay `PyValue`. -/

structure ErrorItem where
  id : PyValue
  message : PyValue
  location : Option String
  severity : String
  suppressed : Bool
  humanized_message : Option String
  deriving DecidableEq, Repr

/-! ## `diagnostics/pipeline.py` lines 31–76 — strict normalization -/

/-- Severity normalization: `raw_item.get("severity", "error")`, lower-cased
strings checked against the fixed enum, anything else falls back to `"error"`. -/
def normalizeSeverity (it : RawItem) : String :=
  match (pyGet it "severity").getD (PyValue.str "error") with
  | PyValue.str s =>
      let sev := pyLower s
      if sev ∈ ["fatal", "error", "warning"] then sev else "error"
  | _ => "error"

/-- Location normalization: kept only when the raw value is a string,
otherwise (missing, `None`, or non-string) set to `None`. -/
def normalizeLocation (it : RawItem) : Option String :=
  match pyGet it "location" with
  | some (PyValue.str s) => some s
  | _ => Option.none

/-- One iteration of the normalization loop: drop the item unless both `id`
and `message` keys are present, otherwise build a fresh six-field record. -/
def normalizeItem (it : RawItem) : Option ErrorItem :=
  match pyGet it "id", pyGet it "message" with
  | some i, some m =>
      some { id := i
             message := m
             location := normalizeLocation it
             severity := normalizeSeverity it
             suppressed := false
             humanized_message := Option.none }
  | _, _ => Option.none

/-- The normalization stage of `DiagnosticsPipeline.run`: the `for` loop that
appends a fresh record per valid item and `continue`s past invalid ones. -/
def normalizedErrors (rawReport : List RawItem) : List ErrorItem :=
  rawReport.filterMap normalizeItem

/-- Record constructor used to state the whitelist property: what
`normalizeItem` emits when both required keys are present. -/
def mkNormalizedRecord (it : RawItem) : ErrorItem :=
  { id := (pyGet it "id").getD PyValue.none
    message := (pyGet it "message").getD PyValue.none
    location := normalizeLocation it
    severity := normalizeSeverity it
    suppressed := false
    humanized_message := Option.none }

/-! ## `diagnostics/dependency_filter.py` lines 153–182 — `DependencyFilter.apply` -/

/-- The loaded suppression configuration: parent id → child ids. -/
abbrev DepMap := List (String × List String)

/-- `self.dependencies[parent]` lookup. -/
def depChildren (deps : DepMap) (parent : String) : Option (List String) :=
  (deps.find? (fun p => p.1 == parent)).map (fun p => p.2)

/-- Children contributed by one present id: when the id is a string that is a
parent key of the map, all of its children except the parent itself
(`child_id != parent_id`). -/
def idContribution (deps : DepMap) (v : PyValue) : List String :=
  match v with
  | PyValue.str s =>
      match depChildren deps s with
      | some kids => kids.filter (fun c => c ≠ s)
      | Option.none => []
  | _ => []

/-- The set `children_to_suppress`: for every present id that is a parent key,
all of its children except the parent itself.  (Built from the batch's ids;
a Python `set` is only ever used for membership tests, so a list suffices.) -/
def suppressTargets (deps : DepMap) (errors : List ErrorItem) : List String :=
  errors.foldr (fun e acc => idContribution deps e.id ++ acc) []

/-- Whether one finding's id is marked for suppression by this batch. -/
def isSuppressTarget (deps : DepMap) (errors : List ErrorItem) (v : PyValue) : Bool :=
  if deps.isEmpty then false
  else
    match v with
    | PyValue.str s => decide (s ∈ suppressTargets deps errors)
    | _ => false

/-- The per-error suppression marking in the final `for` loop of `apply`. -/
def markOne (targets : List String) (e : ErrorItem) : ErrorItem :=
  match e.id with
  | PyValue.str s => if s ∈ targets then { e with suppressed := true } else e
  | _ => e

/-- `DependencyFilter.apply` with a fixed (already loaded, unchanged)
configuration: early return on an empty map, otherwise mark every finding
whose id is in `children_to_suppress` as suppressed. -/
def dependencyFilterApply (deps : DepMap) (errors : List ErrorItem) : List ErrorItem :=
  if deps.isEmpty then errors
  else errors.map (markOne (suppressTargets deps errors))

/-! ## `diagnostics/models.py` — action / debug-context records -/

structure ErrorAction where
  summary : String
  fix : String
  locations : List String
  deriving DecidableEq, Repr

structure DebugContext where
  raw_message : String
  raw_locations : List String
  deriving DecidableEq, Repr

/-! ## Evidence values
The presentation layer treats evidence as a plain (nested) Python structure:
`error.evidence.model_dump(...)` yields a dict whose values are numbers,
strings, booleans, `None`, lists, or nested dicts.  Mutual inductives keep
structural recursion and induction straightforward. -/

mutual
inductive EvValue : Type where
  | int (n : Int)
  | str (s : String)
  | bool (b : Bool)
  | null
  | list (xs : EvList)
  | dict (d : EvDict)
  deriving DecidableEq, Repr

inductive EvList : Type where
  | nil
  | cons (hd : EvValue) (tl : EvList)
  deriving DecidableEq, Repr

inductive EvDict : Type where
  | nil
  | cons (key : String) (val : EvValue) (tl : EvDict)
  deriving DecidableEq, Repr
end

/-- Python `d[k]` / `k in d`: first entry with the given key. -/
def EvDict.get? : EvDict → String → Option EvValue
  | .nil, _ => Option.none
  | .cons k v tl, key => if k = key then some v else tl.get? key

/-- Python `d[k] = v`: replace the value at an existing key in place,
otherwise append the new entry at the end (CPython dict semantics). -/
def EvDict.set : EvDict → String → EvValue → EvDict
  | .nil, key, v => .cons key v .nil
  | .cons k w tl, key, v =>
      if k = key then .cons k v tl else .cons k w (tl.set key v)

/-- Python `list(d.keys())`. -/
def EvDict.keys : EvDict → List String
  | .nil => []
  | .cons k _ tl => k :: tl.keys

/-- Python dict truthiness: a dict is falsy iff it is empty. -/
def EvDict.isEmpty : EvDict → Bool
  | .nil => true
  | .cons _ _ _ => false

/-- `next(iter(d.values()), None)`: the first value, if any. -/
def EvDict.firstVal : EvDict → Option EvValue
  | .nil => Option.none
  | .cons _ v _ => some v

/-- `model_dump(exclude_none=True, ...)`: drop entries whose value is `None`. -/
def EvDict.excludeNone : EvDict → EvDict
  | .nil => .nil
  | .cons k v tl =>
      if v = EvValue.null then tl.excludeNone else .cons k v (tl.excludeNone)

def EvList.toList : EvList → List EvValue
  | .nil => []
  | .cons x xs => x :: xs.toList

def EvList.ofList : List EvValue → EvList
  | [] => .nil
  | x :: xs => .cons x (EvList.ofList xs)

/-- `isinstance(v, (int, float))` — in Python `bool` is a subclass of `int`. -/
def EvValue.isNumeric : EvValue → Bool
  | .int _ => true
  | .bool _ => true
  | _ => false

/-- Numeric value of an evidence entry, `True`/`False` counting as 1/0. -/
def EvValue.asNum? : EvValue → Option Int
  | .int n => some n
  | .bool b => some (if b then 1 else 0)
  | _ => Option.none

/-- A scalar evidence value in the sense of `_aggregate_evidence`:
neither a dict nor a list, hence left untouched by the merge loop. -/
def EvValue.isScalar : EvValue → Bool
  | .list _ => false
  | .dict _ => false
  | _ => true

/-! ## `diagnostics/presentation.py` lines 19–73 — technical-key stripping -/

/-- `TECHNICAL_KEYS`: keys recursively removed from BALANCED evidence. -/
def TECHNICAL_KEYS : List String :=
  ["technical_details", "debug_log", "raw_locations", "stacktrace",
   "trace", "paths", "raw", "internal", "raw_message"]

mutual
/-- `_remove_technical_keys` on an arbitrary value. -/
def removeTechKeys : EvValue → EvValue
  | .list xs => .list (removeTechKeysList xs)
  | .dict d => .dict (removeTechKeysDict d)
  | v => v

/-- `_remove_technical_keys` mapped over a list. -/
def removeTechKeysList : EvList → EvList
  | .nil => .nil
  | .cons x xs => .cons (removeTechKeys x) (removeTechKeysList xs)

/-- `_remove_technical_keys` on a dict: drop disallowed keys, recurse into
the kept values. -/
def removeTechKeysDict : EvDict → EvDict
  | .nil => .nil
  | .cons k v tl =>
      if k ∈ TECHNICAL_KEYS then removeTechKeysDict tl
      else .cons k (removeTechKeys v) (removeTechKeysDict tl)
end

mutual
/-- Whether `key` occurs as a dict key anywhere inside a value. -/
def containsKeyVal (key : String) : EvValue → Bool
  | .list xs => containsKeyList key xs
  | .dict d => containsKeyDict key d
  | _ => false

def containsKeyList (key : String) : EvList → Bool
  | .nil => false
  | .cons x xs => containsKeyVal key x || containsKeyList key xs

def containsKeyDict (key : String) : EvDict → Bool
  | .nil => false
  | .cons k v tl => (k == key) || containsKeyVal key v || containsKeyDict key tl
end

/-! ## `diagnostics/message_catalog.py` — curated titles/fixes and fallbacks -/

/-- `ERROR_CATALOG`: error id ↦ (title, fix). -/
def ERROR_CATALOG : List (String × String × String) :=
  [("PEPPOL-EN16931-R051", "Currency mismatch: BT-5 vs currencyID",
    "Ensure all currencyID attributes match BT-5."),
   ("BR-CO-15", "Totals mismatch: BT-112 vs BT-109 + BT-110",
    "Ensure BT-112 equals BT-109 plus BT-110."),
   ("BR-CO-16", "Tax sum mismatch in line items",
    "Verify tax amounts sum correctly across all line items."),
   ("PEPPOL-EN16931-R001", "Missing mandatory business term",
    "Add the required field according to Peppol BIS 3.0."),
   ("UBL-CR-001", "Invalid code value",
    "Use a valid code from the specified code list.")]

/-- `error_id in ERROR_CATALOG` lookup. -/
def catalogLookup (errorId : String) : Option (String × String) :=
  (ERROR_CATALOG.find? (fun p => p.1 == errorId)).map (fun p => p.2)

/-- Python `str.split()` whitespace (ASCII whitespace characters). -/
def pyIsSpace (c : Char) : Bool :=
  c = ' ' || c = '\t' || c = '\n' || c = '\r' || c = '\x0b' || c = '\x0c'

/-- Helper for Python `s.split()`: accumulate the current word (reversed). -/
def pyWordsAux (cur : List Char) : List Char → List (List Char)
  | [] => if cur.isEmpty then [] else [cur.reverse]
  | c :: rest =>
      if pyIsSpace c then
        if cur.isEmpty then pyWordsAux [] rest
        else cur.reverse :: pyWordsAux [] rest
      else pyWordsAux (c :: cur) rest

/-- `" ".join(summary.split())`: whitespace normalization. -/
def normalizeWs (l : List Char) : List Char :=
  List.intercalate [' '] (pyWordsAux [] l)

/-- Python `delimiter in s` for a character sequence. -/
def containsSeq (d : List Char) : List Char → Bool
  | [] => d.isEmpty
  | c :: rest => d.isPrefixOf (c :: rest) || containsSeq d rest

/-- `s.split(d)[0]`: everything before the first occurrence of `d`
(the whole string when `d` does not occur). -/
def takeBeforeFirst (d : List Char) : List Char → List Char
  | [] => []
  | c :: rest =>
      if d.isPrefixOf (c :: rest) then [] else c :: takeBeforeFirst d rest

/-- The `for delimiter in delimiters: if delimiter in normalized: ...; break`
loop: split at the first delimiter in list (preference) order that occurs
anywhere in the text. -/
def pickSegment : List (List Char) → List Char → List Char
  | [], l => l
  | d :: ds, l => if containsSeq d l then takeBeforeFirst d l else pickSegment ds l

/-- `s.rfind(' ')`: index of the last space, if any. -/
def rfindSpace (l : List Char) : Option Nat :=
  match l.reverse.findIdx? (fun c => c == ' ') with
  | some j => some (l.length - 1 - j)
  | Option.none => Option.none

/-- The `if len(first_segment) > cap:` block: cut at the last space inside
the first `cap` characters (hard cut when there is none at index > 0). -/
def wordCut (cap : Nat) (l : List Char) : List Char :=
  if l.length ≤ cap then l
  else
    match rfindSpace (l.take cap) with
    | some cut => if 0 < cut then l.take cut else l.take cap
    | Option.none => l.take cap

/-- Python `s.strip()` (leading part). -/
def trimLeft (l : List Char) : List Char := l.dropWhile pyIsSpace

/-- Python `s.strip()` (trailing part). -/
def trimRight (l : List Char) : List Char := (l.reverse.dropWhile pyIsSpace).reverse

/-- Python `s.strip()`. -/
def pyStrip (l : List Char) : List Char := trimRight (trimLeft l)

/-- Delimiter preference list of `_generate_fallback_title`. -/
def TITLE_DELIMS : List (List Char) :=
  [". ".data, "; ".data, " - ".data, ": ".data, "\n".data]

/-- Delimiter preference list of `_generate_fallback_fix`. -/
def FIX_DELIMS : List (List Char) := [". ".data, "; ".data, "\n".data]

/-- `_generate_fallback_title` (on code points). -/
def fallbackTitleCore (s : List Char) : List Char :=
  if s.isEmpty then "Validation error".data
  else pyStrip (wordCut 70 (pickSegment TITLE_DELIMS (normalizeWs s)))

/-- `_generate_fallback_fix` (on code points). -/
def fallbackFixCore (s : List Char) : List Char :=
  if s.isEmpty then "Review and correct according to Peppol BIS 3.0 specification.".data
  else pyStrip (wordCut 120 (pickSegment FIX_DELIMS (normalizeWs s)))

/-- `get_title`: curated catalog entry when present, fallback generator else. -/
def getTitle (errorId : String) (fallbackSummary : String) : String :=
  match catalogLookup errorId with
  | some tf => tf.1
  | Option.none => String.mk (fallbackTitleCore fallbackSummary.data)

/-- `get_short_fix`: curated catalog entry when present, fallback else. -/
def getShortFix (errorId : String) (fallbackFix : String) : String :=
  match catalogLookup errorId with
  | some tf => tf.2
  | Option.none => String.mk (fallbackFixCore fallbackFix.data)

/-! ## The tiered error record consumed by the presentation layer
(`ValidationError` as constructed in `src/main.py`, duck-typed in
`presentation.py`: only `id`, `suppressed`, `action.*` and `evidence` are
read there; `evidence` is used through `model_dump`, i.e. as a plain dict). -/

structure ValidationError where
  id : String
  severity : String
  action : ErrorAction
  evidence : Option EvDict
  technical_details : DebugContext
  suppressed : Bool
  deriving DecidableEq, Repr

/-! ## `diagnostics/presentation.py` lines 76–172 — grouping and aggregation -/

/-- `defaultdict(list)` append under a key: extend an existing group in place,
otherwise create a new group at the end (insertion order preserved). -/
def addToGroups {κ α : Type} [DecidableEq κ] (key : κ) (e : α) :
    List (κ × List α) → List (κ × List α)
  | [] => [(key, [e])]
  | (k, es) :: rest =>
      if k = key then (k, es ++ [e]) :: rest else (k, es) :: addToGroups key e rest

/-- Grouping key of `_group_errors`: `(error.id, summary, fix)`. -/
abbrev GroupKey := String × String × String

/-- `_group_errors`: group non-suppressed errors by `(id, summary, fix)`. -/
def groupErrors (errors : List ValidationError) : List (GroupKey × List ValidationError) :=
  errors.foldl
    (fun gs e =>
      if e.suppressed then gs
      else addToGroups (e.id, e.action.summary, e.action.fix) e gs)
    []

/-- `_aggregate_locations`: concatenate all members' locations, keep first 3. -/
def aggregateLocations (errors : List ValidationError) : List String :=
  (errors.foldl (fun acc e => acc ++ e.action.locations) []).take 3

/-- The `evidence_dicts` collection step of `_aggregate_evidence`: dump each
member's evidence (dropping `None` fields) and keep the non-empty dicts. -/
def evidenceDicts (errors : List ValidationError) : List EvDict :=
  errors.filterMap
    (fun e =>
      match e.evidence with
      | some d =>
          let dd := d.excludeNone
          if dd.isEmpty then Option.none else some dd
      | Option.none => Option.none)

/-- `summed[k] = summed.get(k, 0) + v` on an insertion-ordered tally. -/
def addAt : List (String × Int) → String → Int → List (String × Int)
  | [], k, n => [(k, n)]
  | (k', m) :: rest, k, n =>
      if k' = k then (k', m + n) :: rest else (k', m) :: addAt rest k n

/-- The inner `for k, v in ev[key].items()` loop: add every numeric value of
a sub-dict into the running tally. -/
def addNums (summed : List (String × Int)) : EvDict → List (String × Int)
  | .nil => summed
  | .cons k v tl =>
      match v.asNum? with
      | some n => addNums (addAt summed k n) tl
      | Option.none => addNums summed tl

/-- The `summed` accumulation of `_aggregate_evidence`: key-wise sum of the
numeric entries of `ev[key]` across all evidence dicts carrying `key`. -/
def sumDicts (evs : List EvDict) (key : String) : List (String × Int) :=
  evs.foldl
    (fun summed ev =>
      match ev.get? key with
      | some (EvValue.dict sub) => addNums summed sub
      | _ => summed)
    []

/-- A summed tally rendered back as an evidence dict. -/
def tallyToDict : List (String × Int) → EvDict
  | [] => .nil
  | (k, n) :: rest => .cons k (EvValue.int n) (tallyToDict rest)

/-- The `all_values` collection for list-valued fields: concatenate the list
stored under `key` in every evidence dict that has one. -/
def collectLists (evs : List EvDict) (key : String) : List EvValue :=
  evs.foldl
    (fun acc ev =>
      match ev.get? key with
      | some (EvValue.list xs) => acc ++ xs.toList
      | _ => acc)
    []

/-- `list(dict.fromkeys(all_values))`: first occurrences, order preserved. -/
def dedupFirstAux (seen : List EvValue) : List EvValue → List EvValue
  | [] => []
  | x :: rest =>
      if seen.contains x then dedupFirstAux seen rest
      else x :: dedupFirstAux (seen ++ [x]) rest

/-- `list(dict.fromkeys(all_values))`. -/
def dedupFirst (xs : List EvValue) : List EvValue := dedupFirstAux [] xs

/-- One iteration of the `for key in list(merged.keys())` loop of
`_aggregate_evidence`: sum numeric sub-dicts, union list values, leave
scalars alone. -/
def mergeKeyStep (evs : List EvDict) (merged : EvDict) (key : String) : EvDict :=
  match merged.get? key with
  | some (EvValue.dict sub) =>
      if (sub.firstVal.map EvValue.isNumeric).getD false then
        merged.set key (EvValue.dict (tallyToDict (sumDicts evs key)))
      else merged
  | some (EvValue.list _) =>
      merged.set key (EvValue.list (EvList.ofList (dedupFirst (collectLists evs key))))
  | _ => merged

/-- `_aggregate_evidence`: start from the first member's evidence, force
`occurrence_count` to the group size, then merge field by field. -/
def aggregateEvidence (errors : List ValidationError) : EvDict :=
  if errors.isEmpty then EvDict.nil
  else
    let evs := evidenceDicts errors
    if evs.isEmpty then EvDict.nil
    else
      let merged0 := evs.headD EvDict.nil
      let merged1 := merged0.set "occurrence_count" (EvValue.int errors.length)
      merged1.keys.foldl (mergeKeyStep evs) merged1

/-! ## `diagnostics/presentation.py` lines 175–310 — the three projections -/

/-- One SHORT-mode diagnosis entry. -/
structure ShortItem where
  id : String
  title : String
  fix : String
  count : Nat
  locations_sample : Option (List String)
  deriving DecidableEq, Repr

/-- `_filter_short`. -/
def filterShort (errors : List ValidationError) : List ShortItem :=
  (groupErrors errors).map
    (fun g =>
      let locs := aggregateLocations g.2
      { id := g.1.1
        title := getTitle g.1.1 g.1.2.1
        fix := getShortFix g.1.1 g.1.2.2
        count := g.2.length
        locations_sample := if locs.isEmpty then Option.none else some locs })

/-- One BALANCED-mode diagnosis entry. -/
structure BalancedItem where
  id : String
  summary : String
  fix : String
  count : Nat
  locations_sample : Option (List String)
  evidence : Option EvDict
  deriving DecidableEq, Repr

/-- `_filter_balanced`: same grouping; evidence is merged first and the
technical keys are stripped from the merged result afterwards. -/
def filterBalanced (errors : List ValidationError) : List BalancedItem :=
  (groupErrors errors).map
    (fun g =>
      let locs := aggregateLocations g.2
      let merged := aggregateEvidence g.2
      { id := g.1.1
        summary := g.1.2.1
        fix := g.1.2.2
        count := g.2.length
        locations_sample := if locs.isEmpty then Option.none else some locs
        evidence :=
          if merged.isEmpty then Option.none
          else
            let cleaned := removeTechKeysDict merged
            if cleaned.isEmpty then Option.none else some cleaned })

/-- `_filter_detailed`: every individual record, dumped in full
(`model_dump(exclude_none=False)` is a faithful serialization of the record,
so the projection is the identity on the list). -/
def filterDetailed (errors : List ValidationError) : List ValidationError :=
  errors.map (fun e => e)

/-- `ValidationMeta` from `src/main.py` (all fields are strings, so the
`exclude_none` dump branch never drops anything). -/
structure ValidationMeta where
  engine : String
  rules_tag : String
  commit : String
  deriving DecidableEq, Repr

/-- `ValidationResponse` from `src/main.py` as consumed by `apply_mode_filter`. -/
structure ValidationResponse where
  status : String
  meta : ValidationMeta
  errors : List ValidationError
  debug_log : Option String
  deriving DecidableEq, Repr

/-- The mode-specific `diagnosis` payload of the envelope. -/
inductive Diagnosis : Type where
  | short (items : List ShortItem)
  | balanced (items : List BalancedItem)
  | detailed (errors : List ValidationError)
  deriving DecidableEq, Repr

/-- The JSON-safe envelope built by `apply_mode_filter`. -/
structure Envelope where
  status : String
  meta : ValidationMeta
  diagnosis : Diagnosis
  debug_log : Option String
  deriving DecidableEq, Repr

/-- The valid presentation modes. -/
def VALID_MODES : List String := ["short", "balanced", "detailed"]

/-- `_normalize_mode` on the string form of the requested mode
(`str(mode.value)` / `str(mode)` — either way a string reaches `.lower()`):
strict validation, `ValueError` on anything outside the fixed set. -/
def normalizeMode (modeStr : String) : Except String String :=
  let m := pyLower modeStr
  if m ∈ VALID_MODES then Except.ok m
  else Except.error ("Invalid mode " ++ m)

/-- Python truthiness of the optional `debug_log` string. -/
def truthyLog : Option String → Bool
  | some s => !(s == "")
  | Option.none => false

/-- `apply_mode_filter`: normalize the mode (raising on an invalid one),
project the errors per mode, and build the envelope; `debug_log` is attached
only in DETAILED mode and only when truthy. -/
def applyModeFilter (mode : String) (resp : ValidationResponse) : Except String Envelope :=
  match normalizeMode mode with
  | Except.error e => Except.error e
  | Except.ok m =>
      let diagnosis :=
        if m = "short" then Diagnosis.short (filterShort resp.errors)
        else if m = "balanced" then Diagnosis.balanced (filterBalanced resp.errors)
        else Diagnosis.detailed (filterDetailed resp.errors)
      Except.ok
        { status := resp.status
          meta := resp.meta
          diagnosis := diagnosis
          debug_log :=
            if m = "detailed" && truthyLog resp.debug_log then resp.debug_log
            else Option.none }

/-! ## `src/main.py` lines 457–557 — `_deduplicate_errors`
The deduplication engine works on the tiered errors built by
`_build_tiered_error`; their evidence is the typed record of `src/main.py`
(`bt5_value`, `currency_ids_found`, `occurrence_count`). -/

/-- Evidence as constructed and aggregated in `src/main.py`. -/
structure MainErrorEvidence where
  bt5_value : Option String
  currency_ids_found : Option (List (String × Int))
  occurrence_count : Option Int
  deriving DecidableEq, Repr

/-- A tiered error as built in `src/main.py` (`_build_tiered_error`). -/
structure TieredError where
  id : String
  severity : String
  action : ErrorAction
  evidence : Option MainErrorEvidence
  technical_details : DebugContext
  suppressed : Bool
  deriving DecidableEq, Repr

/-- The `error_groups` dict of `_deduplicate_errors`: groups keyed by the
error id alone, insertion ordered. -/
def groupById (errors : List TieredError) : List (String × List TieredError) :=
  errors.foldl (fun gs e => addToGroups e.id e gs) []

/-- `if loc and loc not in collected: collected.append(loc)`. -/
def addUniqueNonEmpty (acc : List String) (loc : String) : List String :=
  if loc ≠ "" && !(acc.contains loc) then acc ++ [loc] else acc

/-- The unique-location collection loops of `_deduplicate_errors`. -/
def uniqueLocations (f : TieredError → List String) (group : List TieredError) : List String :=
  group.foldl (fun acc e => (f e).foldl addUniqueNonEmpty acc) []

/-- The `currency_counts` aggregation: key-wise sum of every member's
(non-empty) `currency_ids_found` tally. -/
def currencyCounts (group : List TieredError) : List (String × Int) :=
  group.foldl
    (fun counts e =>
      match e.evidence with
      | some ev =>
          match ev.currency_ids_found with
          | some m =>
              if m.isEmpty then counts
              else m.foldl (fun cs p => addAt cs p.1 p.2) counts
          | Option.none => counts
      | Option.none => counts)
    []

/-- The body of the per-group loop of `_deduplicate_errors`: merge a whole
group (headed by `first`) into one record. -/
def mergeGroup (errorId : String) (first : TieredError) (group : List TieredError) :
    TieredError :=
  let occurrenceCount := group.length
  let aggregatedEvidence :=
    match first.evidence with
    | Option.none => Option.none
    | some ev =>
        let counts := currencyCounts group
        some { bt5_value := ev.bt5_value
               currency_ids_found :=
                 if counts.isEmpty then ev.currency_ids_found else some counts
               occurrence_count := some (occurrenceCount : Int) }
  let summary :=
    if 1 < occurrenceCount then
      first.action.summary ++ " (Repeated " ++ toString occurrenceCount ++ " times)"
    else first.action.summary
  { id := errorId
    severity := first.severity
    action := { summary := summary
                fix := first.action.fix
                locations := uniqueLocations (fun e => e.action.locations) group }
    evidence := aggregatedEvidence
    technical_details := { raw_message := first.technical_details.raw_message
                           raw_locations :=
                             uniqueLocations (fun e => e.technical_details.raw_locations) group }
    suppressed := first.suppressed }

/-- `_deduplicate_errors`: group by id, merge each group into one record. -/
def dedupErrors (errors : List TieredError) : List TieredError :=
  if errors.isEmpty then errors
  else
    (groupById errors).filterMap
      (fun g =>
        match g.2 with
        | [] => Option.none
        | first :: _ => some (mergeGroup g.1 first g.2))

/-! ## `src/main.py` lines 560–596 — `_apply_cross_error_suppression` -/

/-- The rewritten summary of a cross-suppressed BR-CO-15 finding. -/
def CROSS_SUPPRESSION_MESSAGE : String :=
  "Math Error (Suppressed: Likely caused by Currency Mismatch R051)"

/-- `any(e.id == "PEPPOL-EN16931-R051" for e in errors)`. -/
def hasR051 (errors : List TieredError) : Bool :=
  errors.any (fun e => e.id == "PEPPOL-EN16931-R051")

/-- The in-place mutation applied to each error once R051 is known present. -/
def crossSuppressOne (e : TieredError) : TieredError :=
  if e.id = "BR-CO-15" && !e.suppressed then
    { e with
      suppressed := true
      action := { e.action with summary := CROSS_SUPPRESSION_MESSAGE } }
  else e

/-- `_apply_cross_error_suppression`. -/
def applyCrossErrorSuppression (errors : List TieredError) : List TieredError :=
  if errors.isEmpty then errors
  else if hasR051 errors then errors.map crossSuppressOne
  else errors

/-! ## Spec-modelled reference definitions (for refinement comparison only) -/

/-- Index of the first occurrence of the sequence `d` in a list, if any. -/
def occIdx (d : List Char) : List Char → Option Nat
  | [] => Option.none
  | c :: rest =>
      if d.isPrefixOf (c :: rest) then some 0
      else (occIdx d rest).map (fun i => i + 1)

/-- Modelled from the spec: "derived from the full summary/fix by splitting at
the earliest of a fixed delimiter set".  Splits the text at the delimiter
occurrence that is earliest **in the string** (not the first delimiter in
preference order that occurs, which is what `pickSegment` — the code — does).
Defined only to compare the spec's wording against the code. -/
def specEarliestSegment (delims : List (List Char)) (l : List Char) : List Char :=
  let occs := delims.filterMap (fun d => occIdx d l)
  match occs.foldl (fun best i => match best with
      | Option.none => some i
      | some b => some (min b i)) Option.none with
  | some i => l.take i
  | Option.none => l

/-! ## Template batches used to state the evidence-merge claim -/

/-- One member of an evidence-merge batch: the contents of its list-valued
field, its scalar field's value, and its (ignored) per-member
`occurrence_count`. -/
structure MergeMember where
  listField : List EvValue
  scalarField : EvValue
  occ : Int

/-- The evidence dict a merge member carries: a numeric tally
`{"EUR": 1}` under `kT`, a list under `kL`, a scalar under `kS`, and an
arbitrary per-member `occurrence_count`. -/
def memberEvidence (kT kL kS : String) (m : MergeMember) : EvDict :=
  EvDict.cons kT (EvValue.dict (EvDict.cons "EUR" (EvValue.int 1) EvDict.nil))
    (EvDict.cons kL (EvValue.list (EvList.ofList m.listField))
      (EvDict.cons kS m.scalarField
        (EvDict.cons "occurrence_count" (EvValue.int m.occ) EvDict.nil)))

/-- A validation error carrying a merge member's evidence (the non-evidence
fields are irrelevant to `_aggregate_evidence`). -/
def memberError (kT kL kS : String) (m : MergeMember) : ValidationError :=
  { id := "E"
    severity := "error"
    action := { summary := "s", fix := "f", locations := [] }
    evidence := some (memberEvidence kT kL kS m)
    technical_details := { raw_message := "s", raw_locations := [] }
    suppressed := false }

/-! ## Concrete fixtures used by witnesses and counterexamples -/

/-- A minimal tiered error fixture. -/
def mkTieredSimple (i sum : String) (sup : Bool) : TieredError :=
  { id := i
    severity := "error"
    action := { summary := sum, fix := "fix", locations := [] }
    evidence := Option.none
    technical_details := { raw_message := sum, raw_locations := [] }
    suppressed := sup }

/-- A minimal validation-error fixture for the presentation layer. -/
def mkValSimple (i sev sum fx : String) (ev : Option EvDict) : ValidationError :=
  { id := i
    severity := sev
    action := { summary := sum, fix := fx, locations := [] }
    evidence := ev
    technical_details := { raw_message := sum, raw_locations := [] }
    suppressed := false }

/-- A minimal validation response fixture. -/
def wResp : ValidationResponse :=
  { status := "PASSED"
    meta := { engine := "KoSIT 1.5.0", rules_tag := "release-3.0.18", commit := "c" }
    errors := []
    debug_log := Option.none }

/-! # Theorems -/

/-! ## Helper lemmas: normalization (§4.1) -/

theorem normalizeItem_eq (it : RawItem) :
    normalizeItem it =
      if (pyGet it "id").isSome && (pyGet it "message").isSome
      then some (mkNormalizedRecord it) else Option.none := by
  cases hid : pyGet it "id" <;> cases hmsg : pyGet it "message" <;>
    simp [normalizeItem, mkNormalizedRecord, hid, hmsg]

theorem normalizeSeverity_mem (it : RawItem) :
    normalizeSeverity it ∈ ["fatal", "error", "warning"] := by
  unfold normalizeSeverity
  cases h : (pyGet it "severity").getD (PyValue.str "error") <;> simp
  case str s =>
    by_cases hc : pyLower s ∈ ["fatal", "error", "warning"] <;> simp_all

theorem normalizeLocation_spec (it : RawItem) :
    normalizeLocation it = Option.none
      ∨ ∃ s, pyGet it "location" = some (PyValue.str s)
          ∧ normalizeLocation it = some s := by
  unfold normalizeLocation
  cases h : pyGet it "location" with
  | none => simp
  | some v => cases v <;> simp

/-- C5: the normalization stage emits a fresh record exactly for the raw items
that carry both `id` and `message` (in order, no partial records), each record
has all six fields with `severity` in the fixed enum (defaulting to `error`),
`location` kept only when the raw value is a string, `suppressed = false` and
`humanized_message = null`; the stage is a total function of its input. -/
theorem C5_normalization_whitelist :
    (∀ rawReport : List RawItem,
      normalizedErrors rawReport
        = (rawReport.filter
            (fun it => (pyGet it "id").isSome && (pyGet it "message").isSome)).map
            mkNormalizedRecord)
    ∧ (∀ it : RawItem,
        (normalizeItem it).isSome
          ↔ ((pyGet it "id").isSome ∧ (pyGet it "message").isSome))
    ∧ (∀ it : RawItem,
        (mkNormalizedRecord it).suppressed = false
        ∧ (mkNormalizedRecord it).humanized_message = Option.none
        ∧ (mkNormalizedRecord it).severity ∈ ["fatal", "error", "warning"]
        ∧ (mkNormalizedRecord it).severity = normalizeSeverity it
        ∧ ((mkNormalizedRecord it).location = Option.none
            ∨ ∃ s, pyGet it "location" = some (PyValue.str s)
                ∧ (mkNormalizedRecord it).location = some s)) := by
  refine ⟨fun rawReport => ?_, fun it => ?_, fun it => ?_⟩
  · induction rawReport with
    | nil => rfl
    | cons it rest ih =>
        by_cases h : ((pyGet it "id").isSome && (pyGet it "message").isSome) = true
        · simp [normalizedErrors, List.filterMap_cons, normalizeItem_eq, h,
                List.filter_cons] at ih ⊢
          exact ih
        · simp [normalizedErrors, List.filterMap_cons, normalizeItem_eq, h,
                List.filter_cons] at ih ⊢
          exact ih
  · rw [normalizeItem_eq]
    by_cases h1 : (pyGet it "id").isSome <;> by_cases h2 : (pyGet it "message").isSome <;>
      simp [h1, h2]
  · exact ⟨rfl, rfl, normalizeSeverity_mem it, rfl, normalizeLocation_spec it⟩

/-! ## Helper lemmas: dependency filter (§4.2) -/

theorem markOne_id (targets : List String) (e : ErrorItem) :
    (markOne targets e).id = e.id := by
  unfold markOne
  cases h : e.id <;> simp [h]
  case str s => split <;> simp [h]

theorem markOne_update (targets : List String) (e : ErrorItem) :
    markOne targets e
      = { e with
          suppressed :=
            e.suppressed
              || (match e.id with
                  | PyValue.str s => decide (s ∈ targets)
                  | _ => false) } := by
  rcases e with ⟨eid, emsg, eloc, esev, esup, ehum⟩
  cases eid <;> simp [markOne]
  case str s =>
    by_cases hs : s ∈ targets <;> simp [hs]

theorem suppressTargets_map_markOne (deps : DepMap) (t : List String)
    (errors : List ErrorItem) :
    suppressTargets deps (errors.map (markOne t)) = suppressTargets deps errors := by
  unfold suppressTargets
  rw [List.foldr_map]
  congr 1
  funext e acc
  rw [markOne_id]

theorem markOne_idem (targets : List String) (e : ErrorItem) :
    markOne targets (markOne targets e) = markOne targets e := by
  rcases e with ⟨eid, emsg, eloc, esev, esup, ehum⟩
  cases eid <;> simp [markOne]
  case str s =>
    by_cases hs : s ∈ targets <;> simp [hs, markOne]

/-- C9: with the suppression configuration unchanged, applying the dependency
filter twice yields exactly the same result (hence the same `suppressed` flag
on every finding) as applying it once. -/
theorem C9_dependency_filter_idempotent (deps : DepMap) (errors : List ErrorItem) :
    dependencyFilterApply deps (dependencyFilterApply deps errors)
      = dependencyFilterApply deps errors := by
  by_cases hd : deps.isEmpty
  · simp [dependencyFilterApply, hd]
  · simp only [dependencyFilterApply, hd, if_neg, Bool.false_eq_true, ite_false]
    rw [suppressTargets_map_markOne, List.map_map]
    exact List.map_congr_left (fun e _ => markOne_idem _ e)

/-- C10: the dependency filter never adds, removes or reorders findings; each
output finding is its input finding with every field unchanged except
`suppressed`, which becomes the old flag OR-ed with the batch-derived
suppression test — so `suppressed` can only go from `false` to `true`, and an
already-suppressed finding is never un-suppressed. -/
theorem C10_dependency_filter_frame (deps : DepMap) (errors : List ErrorItem) :
    (dependencyFilterApply deps errors).length = errors.length
    ∧ ∀ i : Nat,
        (dependencyFilterApply deps errors)[i]?
          = (errors[i]?).map
              (fun e =>
                { e with
                  suppressed := e.suppressed || isSuppressTarget deps errors e.id }) := by
  by_cases hd : deps.isEmpty
  · refine ⟨by simp [dependencyFilterApply, hd], fun i => ?_⟩
    simp only [dependencyFilterApply, hd, ite_true]
    cases h : errors[i]? with
    | none => simp [h]
    | some e => simp [h, isSuppressTarget, hd]
  · refine ⟨by simp [dependencyFilterApply, hd], fun i => ?_⟩
    simp only [dependencyFilterApply, hd, Bool.false_eq_true, ite_false,
      List.getElem?_map]
    cases h : errors[i]? with
    | none => rfl
    | some e =>
        simp only [Option.map]
        rw [markOne_update]
        simp [isSuppressTarget, hd]

/-! ## Cross-finding suppression (§4.5) -/

/-- C6: if a `PEPPOL-EN16931-R051` finding is present anywhere in the batch,
every not-yet-suppressed `BR-CO-15` finding is marked suppressed and its
summary is rewritten to name the currency mismatch as likely root cause,
while every other finding is returned unchanged; with no R051 present the
whole batch is returned unchanged. -/
theorem C6_cross_error_suppression (errors : List TieredError) :
    (hasR051 errors = false → applyCrossErrorSuppression errors = errors)
    ∧ (hasR051 errors = true →
        (applyCrossErrorSuppression errors).length = errors.length
        ∧ ∀ i : Nat, ∀ e : TieredError, errors[i]? = some e →
            ((e.id = "BR-CO-15" ∧ e.suppressed = false) →
              (applyCrossErrorSuppression errors)[i]?
                = some { e with
                         suppressed := true
                         action := { e.action with
                                     summary := CROSS_SUPPRESSION_MESSAGE } })
            ∧ (¬(e.id = "BR-CO-15" ∧ e.suppressed = false) →
              (applyCrossErrorSuppression errors)[i]? = some e)) := by
  constructor
  · intro h
    unfold applyCrossErrorSuppression
    by_cases he : errors.isEmpty <;> simp [he, h]
  · intro h
    have he : errors.isEmpty = false := by
      cases errors with
      | nil => simp [hasR051] at h
      | cons a as => rfl
    have happ : applyCrossErrorSuppression errors = errors.map crossSuppressOne := by
      simp [applyCrossErrorSuppression, he, h]
    rw [happ]
    refine ⟨by simp, fun i e hi => ⟨fun hc => ?_, fun hc => ?_⟩⟩
    · rw [List.getElem?_map, hi]
      simp only [Option.map]
      congr 1
      simp [crossSuppressOne, hc.1, hc.2]
    · rw [List.getElem?_map, hi]
      simp only [Option.map]
      congr 1
      unfold crossSuppressOne
      rw [if_neg]
      simpa using hc

/-! ## Presentation-mode validation (§4.6, error handling (e)) -/

/-- C8: `apply_mode_filter` raises exactly when the lowercased string form of
the requested mode is not one of `short` / `balanced` / `detailed` (no silent
defaulting), and for each of the three valid values it performs the
corresponding projection without raising. -/
theorem C8_mode_validation (mode : String) (resp : ValidationResponse) :
    ((∃ msg, applyModeFilter mode resp = Except.error msg)
        ↔ pyLower mode ∉ VALID_MODES)
    ∧ (pyLower mode = "short" →
        applyModeFilter mode resp
          = Except.ok { status := resp.status
                        meta := resp.meta
                        diagnosis := Diagnosis.short (filterShort resp.errors)
                        debug_log := Option.none })
    ∧ (pyLower mode = "balanced" →
        applyModeFilter mode resp
          = Except.ok { status := resp.status
                        meta := resp.meta
                        diagnosis := Diagnosis.balanced (filterBalanced resp.errors)
                        debug_log := Option.none })
    ∧ (pyLower mode = "detailed" →
        applyModeFilter mode resp
          = Except.ok { status := resp.status
                        meta := resp.meta
                        diagnosis := Diagnosis.detailed (filterDetailed resp.errors)
                        debug_log := if truthyLog resp.debug_log then resp.debug_log
                                     else Option.none }) := by
  refine ⟨?_, fun hm => ?_, fun hm => ?_, fun hm => ?_⟩
  · by_cases hv : pyLower mode ∈ VALID_MODES
    · constructor
      · rintro ⟨msg, hmsg⟩
        revert hmsg
        simp [applyModeFilter, normalizeMode, hv]
      · intro hnv
        exact absurd hv hnv
    · exact ⟨fun _ => hv,
        fun _ => ⟨"Invalid mode " ++ pyLower mode,
          by simp [applyModeFilter, normalizeMode, hv]⟩⟩
  · simp [applyModeFilter, normalizeMode, hm, VALID_MODES]
  · simp [applyModeFilter, normalizeMode, hm, VALID_MODES]
  · simp [applyModeFilter, normalizeMode, hm, VALID_MODES]

/-- Witness for C6 at a concrete batch: an R051 plus an unsuppressed BR-CO-15. -/
theorem C6_cross_error_suppression_witness :
    (applyCrossErrorSuppression
        [mkTieredSimple "PEPPOL-EN16931-R051" "Currency mismatch" false,
         mkTieredSimple "BR-CO-15" "Math error" false])[1]?
      = some { mkTieredSimple "BR-CO-15" "Math error" false with
               suppressed := true
               action := { (mkTieredSimple "BR-CO-15" "Math error" false).action with
                           summary := CROSS_SUPPRESSION_MESSAGE } } :=
  (((C6_cross_error_suppression
      [mkTieredSimple "PEPPOL-EN16931-R051" "Currency mismatch" false,
       mkTieredSimple "BR-CO-15" "Math error" false]).2 (by decide)).2 1
      (mkTieredSimple "BR-CO-15" "Math error" false) rfl).1 ⟨rfl, rfl⟩

/-- Witness for C8 at a concrete mode string and response. -/
theorem C8_mode_validation_witness :
    applyModeFilter "SHORT" wResp
      = Except.ok { status := wResp.status
                    meta := wResp.meta
                    diagnosis := Diagnosis.short (filterShort wResp.errors)
                    debug_log := Option.none } :=
  (C8_mode_validation "SHORT" wResp).2.1 (by decide)

/-! ## Grouping keys (§4.4 / §4.6) -/

/-- Counterexample to C1 as stated: in the deduplication engine
(`_deduplicate_errors`) two findings with the same id but different summaries
ARE merged into one record (grouping is by id alone), and in the presentation
grouping (`_group_errors`) two findings with identical `(id, severity,
summary)` but different `fix` values remain two separate groups instead of
merging into one group with count 2. -/
theorem C1_counterexample :
    (mkTieredSimple "X" "A" false).id = (mkTieredSimple "X" "B" false).id
    ∧ (mkTieredSimple "X" "A" false).action.summary
        ≠ (mkTieredSimple "X" "B" false).action.summary
    ∧ (dedupErrors [mkTieredSimple "X" "A" false, mkTieredSimple "X" "B" false]).length = 1
    ∧ (mkValSimple "X" "error" "S" "F1" Option.none).id
        = (mkValSimple "X" "error" "S" "F2" Option.none).id
    ∧ (mkValSimple "X" "error" "S" "F1" Option.none).severity
        = (mkValSimple "X" "error" "S" "F2" Option.none).severity
    ∧ (mkValSimple "X" "error" "S" "F1" Option.none).action.summary
        = (mkValSimple "X" "error" "S" "F2" Option.none).action.summary
    ∧ (groupErrors [mkValSimple "X" "error" "S" "F1" Option.none,
                    mkValSimple "X" "error" "S" "F2" Option.none]).length = 2 := by
  decide

/-- C1 (amended): the deduplication engine groups by id alone — any two
findings sharing an id are merged into one record, whatever their summaries —
while the presentation grouping is keyed by `(id, summary, fix)` over
non-suppressed findings: different summaries always yield separate groups,
and two findings identical in `(id, summary, fix)` merge into exactly one
group holding both members (count 2). -/
theorem C1_grouping_key_amended :
    (∀ e1 e2 : TieredError, e1.id = e2.id → (dedupErrors [e1, e2]).length = 1)
    ∧ (∀ v1 v2 : ValidationError,
        v1.suppressed = false → v2.suppressed = false →
        v1.action.summary ≠ v2.action.summary →
        (groupErrors [v1, v2]).length = 2)
    ∧ (∀ v1 v2 : ValidationError,
        v1.suppressed = false → v2.suppressed = false →
        v1.id = v2.id → v1.action.summary = v2.action.summary →
        v1.action.fix = v2.action.fix →
        groupErrors [v1, v2]
          = [((v1.id, v1.action.summary, v1.action.fix), [v1, v2])]) := by
  refine ⟨fun e1 e2 h => ?_, fun v1 v2 hs1 hs2 hdiff => ?_, fun v1 v2 hs1 hs2 hid hsum hfix => ?_⟩
  · simp [dedupErrors, groupById, addToGroups, h]
  · have h12 : ((v1.id, v1.action.summary, v1.action.fix) : GroupKey)
        ≠ (v2.id, v2.action.summary, v2.action.fix) := by
      intro heq
      exact hdiff (congrArg (fun t => t.2.1) heq)
    simp [groupErrors, addToGroups, hs1, hs2, h12]
  · simp [groupErrors, addToGroups, hs1, hs2, ← hid, ← hsum, ← hfix]

/-- Witness for the amended C1 at concrete findings. -/
theorem C1_grouping_key_amended_witness :
    (dedupErrors [mkTieredSimple "Y" "S1" false, mkTieredSimple "Y" "S2" false]).length = 1
    ∧ (groupErrors [mkValSimple "Z" "error" "Sa" "F" Option.none,
                    mkValSimple "Z" "error" "Sb" "F" Option.none]).length = 2
    ∧ groupErrors [mkValSimple "W" "error" "S" "F" Option.none,
                   mkValSimple "W" "error" "S" "F" Option.none]
        = [(("W", "S", "F"),
            [mkValSimple "W" "error" "S" "F" Option.none,
             mkValSimple "W" "error" "S" "F" Option.none])] :=
  ⟨C1_grouping_key_amended.1 _ _ rfl,
   C1_grouping_key_amended.2.1 _ _ rfl rfl (by decide),
   C1_grouping_key_amended.2.2 _ _ rfl rfl rfl rfl rfl⟩

/-- C2: a batch of three findings identical in id, severity, summary, fix and
locations (and not suppressed) yields exactly 3 entries in the DETAILED
projection (no aggregation) and exactly 1 entry in each of SHORT and
BALANCED, carrying `count = 3`. -/
theorem C2_detailed_completeness (e1 e2 e3 : ValidationError)
    (h1 : e1.suppressed = false) (h2 : e2.suppressed = false)
    (h3 : e3.suppressed = false)
    (hid2 : e2.id = e1.id) (hid3 : e3.id = e1.id)
    (hsev2 : e2.severity = e1.severity) (hsev3 : e3.severity = e1.severity)
    (hsum2 : e2.action.summary = e1.action.summary)
    (hsum3 : e3.action.summary = e1.action.summary)
    (hfix2 : e2.action.fix = e1.action.fix) (hfix3 : e3.action.fix = e1.action.fix)
    (hloc2 : e2.action.locations = e1.action.locations)
    (hloc3 : e3.action.locations = e1.action.locations) :
    (filterDetailed [e1, e2, e3]).length = 3
    ∧ (filterShort [e1, e2, e3]).length = 1
    ∧ (∀ item ∈ filterShort [e1, e2, e3], item.count = 3)
    ∧ (filterBalanced [e1, e2, e3]).length = 1
    ∧ (∀ item ∈ filterBalanced [e1, e2, e3], item.count = 3) := by
  have hg : groupErrors [e1, e2, e3]
      = [((e1.id, e1.action.summary, e1.action.fix), [e1, e2, e3])] := by
    simp [groupErrors, addToGroups, h1, h2, h3, hid2, hid3, hsum2, hsum3, hfix2, hfix3]
  refine ⟨by simp [filterDetailed], ?_, ?_, ?_, ?_⟩
  · simp [filterShort, hg]
  · intro item hitem
    simp [filterShort, hg] at hitem
    simp [hitem]
  · simp [filterBalanced, hg]
  · intro item hitem
    simp [filterBalanced, hg] at hitem
    simp [hitem]

/-- Witness for C2 at a concrete batch of three identical findings. -/
theorem C2_detailed_completeness_witness :
    (filterDetailed [mkValSimple "A" "error" "S" "F" Option.none,
                     mkValSimple "A" "error" "S" "F" Option.none,
                     mkValSimple "A" "error" "S" "F" Option.none]).length = 3
    ∧ (filterShort [mkValSimple "A" "error" "S" "F" Option.none,
                    mkValSimple "A" "error" "S" "F" Option.none,
                    mkValSimple "A" "error" "S" "F" Option.none]).length = 1
    ∧ (∀ item ∈ filterShort [mkValSimple "A" "error" "S" "F" Option.none,
                             mkValSimple "A" "error" "S" "F" Option.none,
                             mkValSimple "A" "error" "S" "F" Option.none],
        item.count = 3)
    ∧ (filterBalanced [mkValSimple "A" "error" "S" "F" Option.none,
                       mkValSimple "A" "error" "S" "F" Option.none,
                       mkValSimple "A" "error" "S" "F" Option.none]).length = 1
    ∧ (∀ item ∈ filterBalanced [mkValSimple "A" "error" "S" "F" Option.none,
                                mkValSimple "A" "error" "S" "F" Option.none,
                                mkValSimple "A" "error" "S" "F" Option.none],
        item.count = 3) :=
  C2_detailed_completeness _ _ _ rfl rfl rfl rfl rfl rfl rfl rfl rfl rfl rfl rfl rfl

/-! ## Fallback title/fix truncation (§4.6, message catalog) -/

theorem findIdx?_some_lt {α : Type} (p : α → Bool) :
    ∀ (l : List α) (j : Nat), l.findIdx? p = some j → j < l.length := by
  intro l
  induction l with
  | nil => intro j h; simp at h
  | cons a xs ih =>
      intro j h
      rw [List.findIdx?_cons] at h
      by_cases hp : p a
      · simp [hp] at h
        simp [List.length_cons]
        omega
      · simp [hp] at h
        obtain ⟨i, hi, hij⟩ := h
        have := ih i hi
        simp [List.length_cons]
        omega

theorem takeBeforeFirst_pref (d : List Char) :
    ∀ l : List Char, takeBeforeFirst d l <+: l := by
  intro l
  induction l with
  | nil => simp [takeBeforeFirst]
  | cons c rest ih =>
      rw [takeBeforeFirst]
      by_cases h : d.isPrefixOf (c :: rest)
      · simp [h]
      · simp only [h, Bool.false_eq_true, ite_false]
        exact (List.prefix_cons_inj c).mpr ih

theorem pickSegment_pref :
    ∀ (ds : List (List Char)) (l : List Char), pickSegment ds l <+: l := by
  intro ds
  induction ds with
  | nil => intro l; simp [pickSegment]
  | cons d rest ih =>
      intro l
      rw [pickSegment]
      by_cases h : containsSeq d l
      · simp only [h, ite_true]
        exact takeBeforeFirst_pref d l
      · simp only [h, Bool.false_eq_true, ite_false]
        exact ih l

theorem rfindSpace_lt (l : List Char) (c : Nat) (h : rfindSpace l = some c) :
    c < l.length := by
  unfold rfindSpace at h
  cases hf : l.reverse.findIdx? (fun ch => ch == ' ') with
  | none => rw [hf] at h; simp at h
  | some j =>
      rw [hf] at h
      have hj : j < l.reverse.length := findIdx?_some_lt _ _ j hf
      rw [List.length_reverse] at hj
      simp only [Option.some.injEq] at h
      omega

theorem wordCut_length_le (cap : Nat) (l : List Char) :
    (wordCut cap l).length ≤ cap := by
  unfold wordCut
  by_cases h : l.length ≤ cap
  · rw [if_pos h]
    exact h
  · rw [if_neg h]
    cases hr : rfindSpace (l.take cap) with
    | none =>
        simp only [hr, List.length_take]
        omega
    | some cut =>
        have hlt : cut < (l.take cap).length := rfindSpace_lt _ _ hr
        rw [List.length_take] at hlt
        by_cases hc : 0 < cut
        · simp only [hr, hc, ite_true, List.length_take]
          omega
        · simp only [hr, hc, ite_false, List.length_take]
          omega

theorem wordCut_pref (cap : Nat) (l : List Char) : wordCut cap l <+: l := by
  unfold wordCut
  by_cases h : l.length ≤ cap
  · rw [if_pos h]
  · rw [if_neg h]
    cases hr : rfindSpace (l.take cap) with
    | none =>
        simp only [hr]
        exact List.take_prefix cap l
    | some cut =>
        by_cases hc : 0 < cut
        · simp only [hr, hc, ite_true]
          exact List.take_prefix _ l
        · simp only [hr, hc, ite_false]
          exact List.take_prefix _ l

theorem trimRight_pref (l : List Char) : trimRight l <+: l := by
  have h : (trimRight l).reverse <:+ l.reverse := by
    unfold trimRight
    rw [List.reverse_reverse]
    exact List.dropWhile_suffix pyIsSpace
  exact List.reverse_suffix.mp h

theorem pyStrip_substring (l : List Char) : pyStrip l <:+: l := by
  unfold pyStrip
  exact ((trimRight_pref (trimLeft l)).isInfix).trans
    ((List.dropWhile_suffix pyIsSpace).isInfix)

theorem fallbackTitleCore_length (s : List Char) : (fallbackTitleCore s).length ≤ 70 := by
  unfold fallbackTitleCore
  by_cases h : s.isEmpty
  · simp only [h, ite_true]
    decide
  · simp only [h, Bool.false_eq_true, ite_false]
    exact le_trans (pyStrip_substring _).length_le
      (wordCut_length_le 70 _)

theorem fallbackTitleCore_substring (s : List Char) (hs : s ≠ []) :
    fallbackTitleCore s <:+: normalizeWs s := by
  unfold fallbackTitleCore
  rw [if_neg (by simpa using hs)]
  exact (pyStrip_substring _).trans
    (((wordCut_pref 70 _).trans (pickSegment_pref TITLE_DELIMS _)).isInfix)

theorem fallbackFixCore_length (s : List Char) : (fallbackFixCore s).length ≤ 120 := by
  unfold fallbackFixCore
  by_cases h : s.isEmpty
  · simp only [h, ite_true]
    decide
  · simp only [h, Bool.false_eq_true, ite_false]
    exact le_trans (pyStrip_substring _).length_le
      (wordCut_length_le 120 _)

theorem fallbackFixCore_substring (s : List Char) (hs : s ≠ []) :
    fallbackFixCore s <:+: normalizeWs s := by
  unfold fallbackFixCore
  rw [if_neg (by simpa using hs)]
  exact (pyStrip_substring _).trans
    (((wordCut_pref 120 _).trans (pickSegment_pref FIX_DELIMS _)).isInfix)

/-- Counterexample to C7 as stated: the code does not split at the delimiter
occurring **earliest in the string**; it splits at the first delimiter in the
fixed preference order `'. '`, `'; '`, `' - '`, `': '`, `'\n'` that occurs
anywhere.  For the summary `"a: b. c"` the earliest delimiter is `": "` (index
1), so the spec-described derivation yields the title `"a"`, but the code
prefers `". "` (index 4) and emits `"a: b"`. -/
theorem C7_counterexample :
    getTitle "XYZ-UNKNOWN" "a: b. c" = "a: b"
    ∧ specEarliestSegment TITLE_DELIMS (normalizeWs "a: b. c".data) = "a".data
    ∧ ("a: b" : String) ≠ "a" := by
  decide

/-- C7 (amended): for every error id absent from the curated catalog, the
SHORT-mode title is the fallback generator's output: the whitespace-normalized
summary split at the **first delimiter in the fixed preference-order list**
(`'. '`, `'; '`, `' - '`, `': '`, newline) that occurs anywhere — not at the
delimiter occurring earliest in the string — word-boundary cut to at most 70
characters; the emitted title is a contiguous substring of the normalized
summary (so no ellipsis is ever appended).  The fix is derived the same way
with a 120-character cap (preference list `'. '`, `'; '`, newline). -/
theorem C7_fallback_truncation_amended (errorId : String) (s f : String)
    (hid : catalogLookup errorId = Option.none) :
    getTitle errorId s = String.mk (fallbackTitleCore s.data)
    ∧ (getTitle errorId s).length ≤ 70
    ∧ (s.data ≠ [] → (getTitle errorId s).data <:+: normalizeWs s.data)
    ∧ getShortFix errorId f = String.mk (fallbackFixCore f.data)
    ∧ (getShortFix errorId f).length ≤ 120
    ∧ (f.data ≠ [] → (getShortFix errorId f).data <:+: normalizeWs f.data) := by
  have ht : getTitle errorId s = String.mk (fallbackTitleCore s.data) := by
    simp [getTitle, hid]
  have hf : getShortFix errorId f = String.mk (fallbackFixCore f.data) := by
    simp [getShortFix, hid]
  refine ⟨ht, ?_, ?_, hf, ?_, ?_⟩
  · rw [ht]
    exact fallbackTitleCore_length s.data
  · intro hne
    rw [ht]
    exact fallbackTitleCore_substring s.data hne
  · rw [hf]
    exact fallbackFixCore_length f.data
  · intro hne
    rw [hf]
    exact fallbackFixCore_substring f.data hne

/-- Witness for the amended C7 at a concrete uncatalogued id and texts. -/
theorem C7_fallback_truncation_amended_witness :
    getTitle "XYZ-UNKNOWN" "hello world" = String.mk (fallbackTitleCore "hello world".data)
    ∧ (getTitle "XYZ-UNKNOWN" "hello world").length ≤ 70
    ∧ (getTitle "XYZ-UNKNOWN" "hello world").data <:+: normalizeWs "hello world".data
    ∧ (getShortFix "XYZ-UNKNOWN" "do the fix").length ≤ 120
    ∧ (getShortFix "XYZ-UNKNOWN" "do the fix").data <:+: normalizeWs "do the fix".data := by
  have h := C7_fallback_truncation_amended "XYZ-UNKNOWN" "hello world" "do the fix" (by decide)
  exact ⟨h.1, h.2.1, h.2.2.1 (by decide), h.2.2.2.2.1, h.2.2.2.2.2 (by decide)⟩

/-! ## BALANCED technical-key stripping (§4.6) -/

mutual
theorem removeTechKeys_clean (key : String) (hk : key ∈ TECHNICAL_KEYS) :
    (v : EvValue) → containsKeyVal key (removeTechKeys v) = false
  | .int _ => rfl
  | .str _ => rfl
  | .bool _ => rfl
  | .null => rfl
  | .list xs => by
      rw [removeTechKeys, containsKeyVal]
      exact removeTechKeysList_clean key hk xs
  | .dict d => by
      rw [removeTechKeys, containsKeyVal]
      exact removeTechKeysDict_clean key hk d

theorem removeTechKeysList_clean (key : String) (hk : key ∈ TECHNICAL_KEYS) :
    (xs : EvList) → containsKeyList key (removeTechKeysList xs) = false
  | .nil => rfl
  | .cons x xs => by
      rw [removeTechKeysList, containsKeyList,
        removeTechKeys_clean key hk x, removeTechKeysList_clean key hk xs]
      rfl

theorem removeTechKeysDict_clean (key : String) (hk : key ∈ TECHNICAL_KEYS) :
    (d : EvDict) → containsKeyDict key (removeTechKeysDict d) = false
  | .nil => rfl
  | .cons k v tl => by
      rw [removeTechKeysDict]
      by_cases hkk : k ∈ TECHNICAL_KEYS
      · rw [if_pos hkk]
        exact removeTechKeysDict_clean key hk tl
      · rw [if_neg hkk, containsKeyDict,
          removeTechKeys_clean key hk v, removeTechKeysDict_clean key hk tl]
        have hne : (k == key) = false := by
          rw [beq_eq_false_iff_ne]
          intro he
          exact hkk (he ▸ hk)
        rw [hne]
        rfl
end

/-- C4: for every batch of findings and every key in the fixed technical-key
set, every evidence dict emitted by the BALANCED projection is free of that
key at every nesting depth; the projection builds that evidence by stripping
the already-merged group evidence (`removeTechKeysDict (aggregateEvidence g)`,
i.e. after merging, not before), so a technically-named field contributed by
any group member never reaches BALANCED output. -/
theorem C4_balanced_technical_stripping (errors : List ValidationError)
    (entry : BalancedItem) (hentry : entry ∈ filterBalanced errors)
    (key : String) (hkey : key ∈ TECHNICAL_KEYS)
    (ev : EvDict) (hev : entry.evidence = some ev) :
    containsKeyDict key ev = false := by
  simp only [filterBalanced, List.mem_map] at hentry
  obtain ⟨g, hg, rfl⟩ := hentry
  simp only at hev
  by_cases h1 : (aggregateEvidence g.2).isEmpty
  · rw [if_pos h1] at hev
    exact absurd hev (by simp)
  · rw [if_neg h1] at hev
    by_cases h2 : (removeTechKeysDict (aggregateEvidence g.2)).isEmpty
    · rw [if_pos h2] at hev
      exact absurd hev (by simp)
    · rw [if_neg h2] at hev
      obtain rfl : removeTechKeysDict (aggregateEvidence g.2) = ev :=
        Option.some.inj hev
      exact removeTechKeysDict_clean key hkey _

/-- Witness for C4: a single finding whose evidence carries the technical key
`raw`; the BALANCED entry's evidence has it stripped. -/
theorem C4_balanced_technical_stripping_witness :
    containsKeyDict "raw"
      (EvDict.cons "note" (EvValue.str "y")
        (EvDict.cons "occurrence_count" (EvValue.int 1) EvDict.nil)) = false :=
  C4_balanced_technical_stripping
    [mkValSimple "A" "error" "S" "F"
      (some (EvDict.cons "raw" (EvValue.str "x")
        (EvDict.cons "note" (EvValue.str "y") EvDict.nil)))]
    { id := "A", summary := "S", fix := "F", count := 1
      locations_sample := Option.none
      evidence := some (EvDict.cons "note" (EvValue.str "y")
        (EvDict.cons "occurrence_count" (EvValue.int 1) EvDict.nil)) }
    (by decide) "raw" (by decide) _ rfl

/-! ## Evidence merge (§4.4) -/

theorem toList_ofList : ∀ xs : List EvValue, (EvList.ofList xs).toList = xs := by
  intro xs
  induction xs with
  | nil => rfl
  | cons x xs ih => simp [EvList.ofList, EvList.toList, ih]

theorem memberEvidence_excludeNone (kT kL kS : String) (m : MergeMember)
    (h : m.scalarField ≠ EvValue.null) :
    (memberEvidence kT kL kS m).excludeNone = memberEvidence kT kL kS m := by
  simp [memberEvidence, EvDict.excludeNone, h]

theorem evidenceDicts_members (kT kL kS : String) :
    ∀ ms : List MergeMember, (∀ m ∈ ms, m.scalarField ≠ EvValue.null) →
      evidenceDicts (ms.map (memberError kT kL kS))
        = ms.map (memberEvidence kT kL kS) := by
  intro ms
  induction ms with
  | nil => intro _; rfl
  | cons m ms ih =>
      intro h
      have hm :
          (memberEvidence kT kL kS m).excludeNone = memberEvidence kT kL kS m :=
        memberEvidence_excludeNone kT kL kS m (h m (by simp))
      simp only [List.map_cons, evidenceDicts, List.filterMap_cons, memberError, hm]
      rw [show (memberEvidence kT kL kS m).isEmpty = false from rfl]
      simp only [Bool.false_eq_true, ite_false]
      rw [← evidenceDicts, ih (fun x hx => h x (by simp [hx]))]

theorem addNums_single (s : List (String × Int)) :
    addNums s (EvDict.cons "EUR" (EvValue.int 1) EvDict.nil) = addAt s "EUR" 1 := rfl

theorem sum_go :
    ∀ (ms : List MergeMember) (k : Int),
      ms.foldl (fun s (_ : MergeMember) => addAt s "EUR" 1) [("EUR", k)]
        = [("EUR", k + ms.length)] := by
  intro ms
  induction ms with
  | nil => intro k; simp
  | cons m ms ih =>
      intro k
      rw [List.foldl_cons, show addAt [("EUR", k)] "EUR" 1 = [("EUR", k + 1)] from by
        simp [addAt]]
      rw [ih (k + 1)]
      simp
      ring

theorem sumDicts_members (kT kL kS : String) (m0 : MergeMember)
    (rest : List MergeMember) :
    sumDicts ((m0 :: rest).map (memberEvidence kT kL kS)) kT
      = [("EUR", ((m0 :: rest).length : Int))] := by
  have hbody :
      (fun (summed : List (String × Int)) (m : MergeMember) =>
        match (memberEvidence kT kL kS m).get? kT with
        | some (EvValue.dict sub) => addNums summed sub
        | _ => summed)
      = fun summed _ => addAt summed "EUR" 1 := by
    funext summed m
    rw [show (memberEvidence kT kL kS m).get? kT
        = some (EvValue.dict (EvDict.cons "EUR" (EvValue.int 1) EvDict.nil)) from by
      simp [memberEvidence, EvDict.get?]]
    rfl
  rw [sumDicts, List.foldl_map, hbody, List.foldl_cons,
    show addAt [] "EUR" 1 = [("EUR", 1)] from rfl, sum_go rest 1]
  simp
  ring

theorem collectLists_members (kT kL kS : String) (hTL : kT ≠ kL)
    (ms : List MergeMember) :
    collectLists (ms.map (memberEvidence kT kL kS)) kL
      = ms.foldl (fun acc m => acc ++ m.listField) [] := by
  have hbody :
      (fun (acc : List EvValue) (m : MergeMember) =>
        match (memberEvidence kT kL kS m).get? kL with
        | some (EvValue.list xs) => acc ++ xs.toList
        | _ => acc)
      = fun acc m => acc ++ m.listField := by
    funext acc m
    rw [show (memberEvidence kT kL kS m).get? kL
        = some (EvValue.list (EvList.ofList m.listField)) from by
      simp [memberEvidence, EvDict.get?, hTL]]
    simp [toList_ofList]
  rw [collectLists, List.foldl_map, hbody]

theorem mergeKeyStep_numeric_dict (evs : List EvDict) (merged : EvDict)
    (key : String) (sub : EvDict)
    (h : merged.get? key = some (EvValue.dict sub))
    (hnum : (sub.firstVal.map EvValue.isNumeric).getD false = true) :
    mergeKeyStep evs merged key
      = merged.set key (EvValue.dict (tallyToDict (sumDicts evs key))) := by
  rw [mergeKeyStep, h]
  simp [hnum]

theorem mergeKeyStep_list (evs : List EvDict) (merged : EvDict)
    (key : String) (xs : EvList)
    (h : merged.get? key = some (EvValue.list xs)) :
    mergeKeyStep evs merged key
      = merged.set key
          (EvValue.list (EvList.ofList (dedupFirst (collectLists evs key)))) := by
  rw [mergeKeyStep, h]

theorem mergeKeyStep_scalar (evs : List EvDict) (merged : EvDict)
    (key : String) (v : EvValue)
    (h : merged.get? key = some v) (hv : v.isScalar = true) :
    mergeKeyStep evs merged key = merged := by
  rw [mergeKeyStep, h]
  cases v <;> simp_all [EvValue.isScalar]

/-- C3: merging a non-empty group of N findings whose evidence each carries a
numeric tally `{"EUR": 1}` under a shared key, a list-valued field under a
second key, a scalar field under a third key, and an arbitrary per-member
`occurrence_count`: the merged evidence tallies `{"EUR": N}` (key-wise sum
across members), the list field becomes the union of all members' lists in
first-seen order, the scalar field keeps the first member's value, and
`occurrence_count` is N regardless of the per-member values. -/
theorem C3_evidence_merge (kT kL kS : String)
    (hTL : kT ≠ kL) (hTS : kT ≠ kS) (hLS : kL ≠ kS)
    (hTocc : kT ≠ "occurrence_count") (hLocc : kL ≠ "occurrence_count")
    (hSocc : kS ≠ "occurrence_count")
    (m0 : MergeMember) (rest : List MergeMember)
    (hscalar : m0.scalarField.isScalar = true)
    (hnn : ∀ m ∈ m0 :: rest, m.scalarField ≠ EvValue.null) :
    aggregateEvidence ((m0 :: rest).map (memberError kT kL kS))
      = EvDict.cons kT
          (EvValue.dict (EvDict.cons "EUR"
            (EvValue.int ((m0 :: rest).length : Int)) EvDict.nil))
          (EvDict.cons kL
            (EvValue.list (EvList.ofList (dedupFirst
              ((m0 :: rest).foldl (fun acc m => acc ++ m.listField) []))))
            (EvDict.cons kS m0.scalarField
              (EvDict.cons "occurrence_count"
                (EvValue.int ((m0 :: rest).length : Int)) EvDict.nil))) := by
  have hevs := evidenceDicts_members kT kL kS (m0 :: rest) hnn
  have hsum := sumDicts_members kT kL kS m0 rest
  have hcol := collectLists_members kT kL kS hTL (m0 :: rest)
  simp only [aggregateEvidence, hevs]
  simp only [List.map_cons, List.isEmpty_cons, List.headD_cons, List.length_cons,
    List.length_map, Bool.false_eq_true, ite_false]
  -- the batch length as it now appears
  have hM1 :
      (memberEvidence kT kL kS m0).set "occurrence_count"
          (EvValue.int ((rest.length + 1 : Nat) : Int))
        = EvDict.cons kT (EvValue.dict (EvDict.cons "EUR" (EvValue.int 1) EvDict.nil))
            (EvDict.cons kL (EvValue.list (EvList.ofList m0.listField))
              (EvDict.cons kS m0.scalarField
                (EvDict.cons "occurrence_count"
                  (EvValue.int ((rest.length + 1 : Nat) : Int)) EvDict.nil))) := by
    simp [memberEvidence, EvDict.set, hTocc, hLocc, hSocc]
  rw [hM1]
  simp only [EvDict.keys, List.foldl_cons, List.foldl_nil]
  -- step 1: the numeric tally under kT is replaced by the key-wise sum
  rw [mergeKeyStep_numeric_dict _ _ kT (EvDict.cons "EUR" (EvValue.int 1) EvDict.nil)
    (by simp [EvDict.get?]) rfl]
  have hsum2 : sumDicts (memberEvidence kT kL kS m0
      :: rest.map (memberEvidence kT kL kS)) kT
      = [("EUR", ((rest.length + 1 : Nat) : Int))] := by
    simpa [List.map_cons, List.length_cons, List.length_map] using hsum
  rw [hsum2]
  have hset1 :
      (EvDict.cons kT (EvValue.dict (EvDict.cons "EUR" (EvValue.int 1) EvDict.nil))
          (EvDict.cons kL (EvValue.list (EvList.ofList m0.listField))
            (EvDict.cons kS m0.scalarField
              (EvDict.cons "occurrence_count"
                (EvValue.int ((rest.length + 1 : Nat) : Int)) EvDict.nil)))).set kT
          (EvValue.dict (tallyToDict [("EUR", ((rest.length + 1 : Nat) : Int))]))
        = EvDict.cons kT
            (EvValue.dict (EvDict.cons "EUR"
              (EvValue.int ((rest.length + 1 : Nat) : Int)) EvDict.nil))
            (EvDict.cons kL (EvValue.list (EvList.ofList m0.listField))
              (EvDict.cons kS m0.scalarField
                (EvDict.cons "occurrence_count"
                  (EvValue.int ((rest.length + 1 : Nat) : Int)) EvDict.nil))) := by
    simp [EvDict.set, tallyToDict]
  rw [hset1]
  -- step 2: the list field under kL is replaced by the deduplicated union
  rw [mergeKeyStep_list _ _ kL (EvList.ofList m0.listField)
    (by simp [EvDict.get?, hTL])]
  have hcol2 : collectLists (memberEvidence kT kL kS m0
      :: rest.map (memberEvidence kT kL kS)) kL
      = (m0 :: rest).foldl (fun acc m => acc ++ m.listField) [] := by
    simpa [List.map_cons] using hcol
  rw [hcol2]
  have hset2 :
      (EvDict.cons kT
          (EvValue.dict (EvDict.cons "EUR"
            (EvValue.int ((rest.length + 1 : Nat) : Int)) EvDict.nil))
          (EvDict.cons kL (EvValue.list (EvList.ofList m0.listField))
            (EvDict.cons kS m0.scalarField
              (EvDict.cons "occurrence_count"
                (EvValue.int ((rest.length + 1 : Nat) : Int)) EvDict.nil)))).set kL
          (EvValue.list (EvList.ofList (dedupFirst
            ((m0 :: rest).foldl (fun acc m => acc ++ m.listField) []))))
        = EvDict.cons kT
            (EvValue.dict (EvDict.cons "EUR"
              (EvValue.int ((rest.length + 1 : Nat) : Int)) EvDict.nil))
            (EvDict.cons kL (EvValue.list (EvList.ofList (dedupFirst
                ((m0 :: rest).foldl (fun acc m => acc ++ m.listField) []))))
              (EvDict.cons kS m0.scalarField
                (EvDict.cons "occurrence_count"
                  (EvValue.int ((rest.length + 1 : Nat) : Int)) EvDict.nil))) := by
    simp [EvDict.set, hTL]
  rw [hset2]
  -- step 3: the scalar field under kS is left untouched
  rw [mergeKeyStep_scalar _ _ kS m0.scalarField
    (by simp [EvDict.get?, hTS, hLS]) hscalar]
  -- step 4: occurrence_count is an int, left untouched
  rw [mergeKeyStep_scalar _ _ "occurrence_count"
    (EvValue.int ((rest.length + 1 : Nat) : Int))
    (by simp [EvDict.get?, hTocc, hLocc, hSocc]) rfl]
  simp [List.length_cons]

/-- Witness for C3: three members under the tally key `currency_ids_found`,
with list field `codes`, scalar field `note` and differing per-member
`occurrence_count` values; the merge yields `{"EUR": 3}`, the first-seen
union `["a", "b"]`, the first member's scalar and `occurrence_count = 3`. -/
theorem C3_evidence_merge_witness :
    aggregateEvidence
        (([⟨[EvValue.str "a"], EvValue.str "x", 7⟩,
           ⟨[EvValue.str "a", EvValue.str "b"], EvValue.int 2, 9⟩,
           ⟨[], EvValue.bool true, 11⟩] : List MergeMember).map
          (memberError "currency_ids_found" "codes" "note"))
      = EvDict.cons "currency_ids_found"
          (EvValue.dict (EvDict.cons "EUR" (EvValue.int 3) EvDict.nil))
          (EvDict.cons "codes"
            (EvValue.list (EvList.ofList [EvValue.str "a", EvValue.str "b"]))
            (EvDict.cons "note" (EvValue.str "x")
              (EvDict.cons "occurrence_count" (EvValue.int 3) EvDict.nil))) := by
  have h := C3_evidence_merge "currency_ids_found" "codes" "note"
    (by decide) (by decide) (by decide) (by decide) (by decide) (by decide)
    ⟨[EvValue.str "a"], EvValue.str "x", 7⟩
    [⟨[EvValue.str "a", EvValue.str "b"], EvValue.int 2, 9⟩,
     ⟨[], EvValue.bool true, 11⟩]
    rfl (by decide)
  exact h.trans (by decide)

end InvoiceGuard
